import Mathlib

/-!
Verification development for the snapshot/tag/restore workflow of
`src/Resource_Files/python3lib/repomanager.py` (Sigil's repository manager).

The Python module is shallowly embedded here:
* a filesystem (a directory's contents) is an association list from relative
  path to file content, where a later write shadows earlier entries;
* fallible Python code is translated into `Except PyError`;
* the external object store (the dulwich `porcelain` collaborator) is modelled
  by a small state record plus an oracle for the results that the store, not
  this module, determines (`status`, `add`);
* the host path separator (`os.sep`, a single character) is passed explicitly
  as a `sep : Char` parameter, and document-internal paths are normalized by
  replacing `/` with it exactly as the source's `replace("/", os.sep)` does.
-/

/-- A Python exception value, as far as this module distinguishes them. -/
inductive PyError where
  | nameError (name : String)
  | exception (msg : String)
deriving Repr, DecidableEq

/-- A directory's contents: relative path to file content.  A later
`fsWrite` shadows earlier entries for the same path. -/
abbrev FS := List (String × String)

/-- Read the file at path `p`, if present. -/
def fsRead (fs : FS) (p : String) : Option String :=
  (fs.find? (fun e => e.1 == p)).map (·.2)

/-- Write content `c` at path `p` (creating or overwriting). -/
def fsWrite (fs : FS) (p c : String) : FS := (p, c) :: fs

/-- The paths present in a directory. -/
def fsPaths (fs : FS) : List String := fs.map Prod.fst

/-! ### Decimal formatting: the `"V%04d" % n` tag labels -/

/-- Little-endian decimal digits of `n`, fuelled so that it reduces by
`rfl`/`decide`; `fuel ≥ n` suffices. -/
def toDecimalAux : Nat → Nat → List Nat
  | 0, _ => []
  | _ + 1, 0 => []
  | fuel + 1, n + 1 => ((n + 1) % 10) :: toDecimalAux fuel ((n + 1) / 10)

/-- Little-endian decimal digits of `n` (empty for `0`). -/
def decDigits (n : Nat) : List Nat := toDecimalAux n n

/-- The character for one decimal digit. -/
def digitChar : Nat → Char
  | 0 => '0' | 1 => '1' | 2 => '2' | 3 => '3' | 4 => '4'
  | 5 => '5' | 6 => '6' | 7 => '7' | 8 => '8' | 9 => '9'
  | _ => '*'

/-- Numeric value of a decimal digit character. -/
def digitVal (c : Char) : Nat := c.toNat - 48

/-- Python's `"%04d" % k`: the decimal digits of `k`, zero-padded on the left
to a minimum width of 4. -/
def pct04d (k : Nat) : String :=
  String.mk (List.replicate (4 - (decDigits k).length) '0'
    ++ ((decDigits k).reverse.map digitChar))

/-- The tag label `"V%04d" % k` (source line 298; line 326 writes the literal
`'V0001'`, which coincides with `vtag 1`). -/
def vtag (k : Nat) : String := "V" ++ pct04d k

/-- Decode a `vtag` label back to its number (drop the `V`, read the digits
big-endian; leading zeros are harmless). -/
def vtagVal (s : String) : Nat :=
  (s.data.drop 1).foldl (fun acc c => 10 * acc + digitVal c) 0

/-! ### The archive builder (`build_epub_from_folder_contents`) -/

/-- Embedding of `_SKIP_LIST` (source lines 46–52).  In the source the entries
`'.gitattributes'` and `'.bookinfo'` are not separated by a comma, so Python's
adjacent string-literal concatenation makes them the single list element
`'.gitattributes.bookinfo'`; the list has four elements, not five. -/
def _SKIP_LIST : List String :=
  ["encryption.xml", "rights.xml", ".gitignore", ".gitattributes.bookinfo"]

/-- Split a character list at every occurrence of `sep` (Python
`str.split(sep)` semantics: empty segments are kept). -/
def splitOnCharAux (sep : Char) : List Char → List Char → List (List Char)
  | [], acc => [acc.reverse]
  | c :: rest, acc =>
    if c = sep then acc.reverse :: splitOnCharAux sep rest []
    else splitOnCharAux sep rest (c :: acc)

/-- `rpath.split(os.sep)`: the path's segments.  `os.sep` is a single
character (`/` or `\`), so the separator is modelled as a `Char`. -/
def pathSegs (sep : Char) (p : String) : List String :=
  (splitOnCharAux sep p.data []).map String.mk

/-- Python `p.replace("/", os.sep)` for the one-character `os.sep`: replace
every `/` by the host separator. -/
def sepNormalize (sep : Char) (p : String) : String :=
  String.mk (p.data.map (fun ch => if ch = '/' then sep else ch))

/-- `os.path.basename`: the final component of `rpath` after splitting on the
host separator `sep`. -/
def basename (sep : Char) (rpath : String) : String :=
  (pathSegs sep rpath).getLastD ""

/-- Embedding of `valid_file_to_copy` (source lines 186–192): `True` iff the
path has no `.git` segment and its base name is not in `_SKIP_LIST`. -/
def valid_file_to_copy (sep : Char) (rpath : String) : Bool :=
  let segs := pathSegs sep rpath
  if segs.contains ".git" then false
  else
    let filename := basename sep rpath
    !(_SKIP_LIST.contains filename)

/-- Compression method of one zip entry. -/
inductive Comp where
  | stored
  | deflated
deriving Repr, DecidableEq

/-- One entry of the produced zip archive. -/
structure ZipEntry where
  name : String
  comp : Comp
  content : String
deriving Repr, DecidableEq

/-- Result of one archive build.  `outFileCreated` records that
`zipfile.ZipFile(epub_filepath, mode='w')` (source line 196) opened the output
file for writing — creating/truncating it on disk — which happens before the
`mimetype` check; `result` is the raised exception or the entry list of the
completed archive, in order. -/
structure BuildResult where
  outFileCreated : Bool
  result : Except String (List ZipEntry)
deriving Repr

/-- Embedding of `build_epub_from_folder_contents` (source lines 195–207).
The folder is given as its contents `folder : FS`; `walk_folder` is the list
of its paths.  The entry written for a path carries the file's content. -/
def build_epub_from_folder_contents (sep : Char) (folder : FS) : BuildResult :=
  -- `outzip = zipfile.ZipFile(epub_filepath, mode='w')`: output file created.
  let files := fsPaths folder
  if files.contains "mimetype" then
    let first : ZipEntry :=
      { name := "mimetype", comp := Comp.stored,
        content := (fsRead folder "mimetype").getD "" }
    let rest := (files.erase "mimetype").filter (valid_file_to_copy sep)
    { outFileCreated := true,
      result := Except.ok (first :: rest.map (fun f =>
        { name := f, comp := Comp.deflated, content := (fsRead folder f).getD "" })) }
  else
    { outFileCreated := true, result := Except.error "mimetype file is missing" }

/-! ### The working-tree materializer (`generate_epub_from_tag`) -/

/-- A git repository as this module observes it: its tag names, the tree
contents recorded for each tag, its working tree, and its HEAD reference.
`tagTree` abstracts the object store's commit/tree data. -/
structure GitRepo where
  tags : List String
  tagTree : String → FS
  workTree : FS
  head : String

/-- Embedding of `make_temp_directory` (source lines 38–44): a
`@contextmanager` generator `mkdtemp(); yield; rmtree()`.  Because the `yield`
is not wrapped in `try`/`finally`, the `rmtree` after the yield runs only when
the `with` body completes normally; an exception raised by the body propagates
at the yield point and the `rmtree` is skipped.  Returns whether the temporary
directory was removed, together with the body's outcome. -/
def make_temp_directory (body : Except PyError α) : Bool × Except PyError α :=
  match body with
  | Except.ok a => (true, Except.ok a)
  | Except.error e => (false, Except.error e)

/-- Outcome of one `generate_epub_from_tag` call.  `srcRepo` is the state of
the persistent repository afterwards (`none` when it did not exist);
`scratchAllocated`/`scratchRemoved` track the temporary directory;
`scratchFinal` is the scratch clone's state when the `with` body completed;
`outFileCreated` records whether a file was created at the output path. -/
structure GenOutcome where
  result : Except PyError String
  srcRepo : Option GitRepo
  scratchAllocated : Bool
  scratchRemoved : Bool
  scratchFinal : Option GitRepo
  outFileCreated : Bool

/-- Embedding of `generate_epub_from_tag` (source lines 212–253).

* `repo?` is the repository found at `<localRepo>/epub_<bookid>` (`none` when
  `os.path.exists` fails); `cloneFails` injects a filesystem failure from the
  external `Repo.clone` call inside the `with` block.
* When the repository exists but the tag is not in the enumerated list, the
  source executes `return epub_file_path` (line 227) — but the variable in
  scope is `epub_filepath`, so Python raises
  `NameError: name 'epub_file_path' is not defined`.
* The clone is made with `checkout=False`, then `reset_index` and
  `set_symbolic_ref` are applied to the clone `r`; the source repository `s`
  is never written to. -/
def generate_epub_from_tag (sep : Char) (repo? : Option GitRepo)
    (tagname filename dest_path : String) (cloneFails : Bool) : GenOutcome :=
  let epub_name := filename ++ "_" ++ tagname ++ ".epub"
  match repo? with
  | none =>
    -- `os.path.exists(repo_path)` is false: fall through to `return epub_filepath`,
    -- which still holds its initial value `""`.
    { result := Except.ok "", srcRepo := none, scratchAllocated := false,
      scratchRemoved := false, scratchFinal := none, outFileCreated := false }
  | some s =>
    let taglst := s.tags
    if tagname ∈ taglst then
      -- `with make_temp_directory() as scratchrepo:`
      let body : Except PyError (GitRepo × Except String (List ZipEntry) × Bool × String) :=
        if cloneFails then Except.error (PyError.exception "clone failed")
        else
          -- `r = s.clone(scratchrepo, ..., checkout=False)`: objects and tags
          -- are copied, the working tree is not populated.
          let r0 : GitRepo := { tags := s.tags, tagTree := s.tagTree,
                                workTree := [], head := "refs/heads/master" }
          -- `r.reset_index(r[tagkey].tree)`
          let r1 : GitRepo := { r0 with workTree := s.tagTree tagname }
          -- `r.refs.set_symbolic_ref(b"HEAD", tagkey)`
          let r2 : GitRepo := { r1 with head := "refs/tags/" ++ tagname }
          let epub_filepath := dest_path ++ String.mk [sep] ++ epub_name
          let build := build_epub_from_folder_contents sep r2.workTree
          -- `try: build_epub_from_folder_contents(...) except: epub_filepath = ""`
          match build.result with
          | Except.ok _ => Except.ok (r2, build.result, build.outFileCreated, epub_filepath)
          | Except.error _ => Except.ok (r2, build.result, build.outFileCreated, "")
      match make_temp_directory body with
      | (removed, Except.ok (r2, _, fileCreated, path)) =>
        { result := Except.ok path, srcRepo := some s, scratchAllocated := true,
          scratchRemoved := removed, scratchFinal := some r2,
          outFileCreated := fileCreated }
      | (removed, Except.error e) =>
        { result := Except.error e, srcRepo := some s, scratchAllocated := true,
          scratchRemoved := removed, scratchFinal := none, outFileCreated := false }
    else
      -- `if tagname not in taglst: return epub_file_path` — NameError: the
      -- defined variable is `epub_filepath`.
      { result := Except.error (PyError.nameError "epub_file_path"),
        srcRepo := some s, scratchAllocated := false, scratchRemoved := false,
        scratchFinal := none, outFileCreated := false }

/-! ### The snapshot engine (`performCommit`) -/

/-- The object store's repository state as consumed by `performCommit`:
tag names, tracked (index) paths, the repository working directory, and an
abstract commit count. -/
structure StoreRepo where
  tags : List String
  tracked : List String
  workDir : FS
  commits : Nat
deriving Repr, DecidableEq

/-- Oracle for the results that the external store, not this module,
determines: the `unstaged` and `untracked` sets reported by
`porcelain.status`, the `(added, ignored)` result of `porcelain.add`, and an
optional exception raised by `porcelain.commit` (to model store failures). -/
structure StoreOracle where
  statusUnstaged : List String
  statusUntracked : List String
  addResult : List String → List String × List String
  commitError : Option PyError

/-- Model of `porcelain.rm`: removes the paths from the index and deletes the
files from the working directory. -/
def storeRm (r : StoreRepo) (paths : List String) : StoreRepo :=
  { r with tracked := r.tracked.filter (fun f => !(paths.contains f)),
           workDir := r.workDir.filter (fun e => !(paths.contains e.1)) }

/-- Model of `porcelain.add`: the paths the store reports as added become
tracked. -/
def storeAdd (r : StoreRepo) (added : List String) : StoreRepo :=
  { r with tracked := r.tracked ++ added.filter (fun f => !(r.tracked.contains f)) }

/-- Model of `porcelain.commit`: appends one commit to the history. -/
def storeCommit (r : StoreRepo) : StoreRepo := { r with commits := r.commits + 1 }

/-- Model of `porcelain.tag_create`: records one more tag. -/
def storeTagCreate (r : StoreRepo) (t : String) : StoreRepo :=
  { r with tags := r.tags ++ [t] }

/-- The copy loop of `copy_book_contents_to_destination` (source lines
130–142): read each source file and write it under the destination, failing
with `FileNotFoundError` when a source file is absent. -/
def copyLoop (book_home : FS) : List String → FS → List String →
    Except PyError (FS × List String)
  | [], d, copied => Except.ok (d, copied)
  | apath :: rest, d, copied =>
    match fsRead book_home apath with
    | none => Except.error (PyError.exception ("FileNotFoundError: " ++ apath))
    | some data => copyLoop book_home rest (fsWrite d apath data) (copied ++ [apath])

/-- Embedding of `copy_book_contents_to_destination` (source lines 128–148):
copy every path in `filepaths` from `book_home` into the destination, then
unconditionally write the `mimetype` file with the fixed bytes
`application/epub+zip` and append `"mimetype"` to the returned list. -/
def copy_book_contents_to_destination (book_home : FS) (filepaths : List String)
    (destdir : FS) : Except PyError (FS × List String) :=
  match copyLoop book_home filepaths destdir [] with
  | Except.error e => Except.error e
  | Except.ok (d, copied) =>
    Except.ok (fsWrite d "mimetype" "application/epub+zip", copied ++ ["mimetype"])

/-- Contents written by `add_gitignore` (source lines 150–162). -/
def gitignore_data : String :=
  ".DS_Store\n*~\n*.orig\n*.bak\n.bookinfo\n.gitignore\n.gitattributes\n"

/-- Contents written by `add_gitattributes` (source lines 165–174). -/
def gitattributes_data : String :=
  ".git export-ignore\n.gitattributes export-ignore\n.gitignore export-ignore\n.bookinfo export-ignore\n"

/-- Contents written by `add_bookinfo` (source lines 176–183). -/
def bookinfo_data (filename bookid : String) : String :=
  filename ++ "\n" ++ bookid ++ "\n"

/-- The `files_to_delete` computation of `performCommit` (source lines
300–307): every tracked path that is neither among the supplied file paths nor
one of `mimetype`, `.gitignore`, `.bookinfo`. -/
def files_to_delete (tracked filepaths : List String) : List String :=
  tracked.filter (fun afile =>
    decide (afile ∉ filepaths ∧ afile ∉ (["mimetype", ".gitignore", ".bookinfo"] : List String)))

/-- Outcome of one successful `performCommit` call.  `repo` is the repository
afterwards; `report` is the returned string; `rmPaths` records the paths passed
to `porcelain.rm` (empty when it was not invoked); `tagCreated` the tag made;
`copied` the list returned by `copy_book_contents_to_destination` (the source
discards it in the incremental branch; it is recorded here as a trace). -/
structure CommitOutcome where
  repo : StoreRepo
  report : String
  rmPaths : List String
  tagCreated : String
  copied : List String

/-- Embedding of `performCommit` (source lines 272–343).  `repo?` is the
repository at `<localRepo>/epub_<bookid>` or `none` when absent; `bh` is the
book's current file tree (`bookroot`); `bookfiles` the supplied book paths.
The source has no `try`/`except`: a failing store or filesystem operation
(here: a missing source file during the copy, or `oracle.commitError`)
propagates to the caller.  The `has_error` flag of the source is initialized
`False` and never set, so the final `if not has_error` always returns the
report string. -/
def performCommit (sep : Char) (bookid filename : String) (repo? : Option StoreRepo)
    (bh : FS) (bookfiles : List String) (oracle : StoreOracle) :
    Except PyError CommitOutcome :=
  -- `afile.replace("/", os.sep)` for each book path
  let filepaths := bookfiles.map (sepNormalize sep)
  match repo? with
  | some repo =>
    -- `tags = porcelain.list_tags(...)`; `tagname = "V%04d" % (len(tags) + 1)`
    let tagname := vtag (repo.tags.length + 1)
    -- `tracked = porcelain.ls_files(...)`
    let ftd := files_to_delete repo.tracked filepaths
    -- `if len(files_to_delete) > 0: porcelain.rm(...)`
    let repo1 := if ftd.length > 0 then storeRm repo ftd else repo
    match copy_book_contents_to_destination bh filepaths repo1.workDir with
    | Except.error e => Except.error e
    | Except.ok (wd, copied) =>
      let repo2 := { repo1 with workDir := wd }
      let files_to_update := oracle.statusUnstaged ++ oracle.statusUntracked
      let (added, ignored) := oracle.addResult files_to_update
      let repo3 := storeAdd repo2 added
      match oracle.commitError with
      | some e => Except.error e
      | none =>
        let repo4 := storeCommit repo3
        let repo5 := storeTagCreate repo4 tagname
        let result := String.intercalate "\n" added ++ "***********"
          ++ String.intercalate "\n" ignored
        Except.ok
          { repo := repo5, report := result,
            rmPaths := if ftd.length > 0 then ftd else [], tagCreated := tagname,
            copied := copied }
  | none =>
    -- initial commit: `tagname = 'V0001'`
    let tagname := "V0001"
    let wd1 := fsWrite [] ".gitignore" gitignore_data
    let wd2 := fsWrite wd1 ".gitattributes" gitattributes_data
    -- `porcelain.init(...)`
    match copy_book_contents_to_destination bh filepaths wd2 with
    | Except.error e => Except.error e
    | Except.ok (wd3, staged) =>
      let (added, ignored) := oracle.addResult staged
      let repo0 : StoreRepo := { tags := [], tracked := [], workDir := wd3, commits := 0 }
      let repo1 := storeAdd repo0 added
      match oracle.commitError with
      | some e => Except.error e
      | none =>
        let repo2 := storeCommit repo1
        let repo3 := storeTagCreate repo2 tagname
        -- `add_bookinfo(repo_path, filename, bookid)` after the tag
        let repo4 := { repo3 with
          workDir := fsWrite repo3.workDir ".bookinfo" (bookinfo_data filename bookid) }
        let result := String.intercalate "\n" added ++ "***********"
          ++ String.intercalate "\n" ignored
        Except.ok
          { repo := repo4, report := result, rmPaths := [],
            tagCreated := tagname, copied := staged }

/-- The repository after `n` `performCommit` calls starting from a fresh
document identity (no repository), with the `k`-th call given book files
`books k` and store oracle `oracle k`. -/
def repoAfter (sep : Char) (bookid filename : String) (bh : FS)
    (books : Nat → List String) (oracle : Nat → StoreOracle) :
    Nat → Except PyError (Option StoreRepo)
  | 0 => Except.ok none
  | n + 1 =>
    match repoAfter sep bookid filename bh books oracle n with
    | Except.error e => Except.error e
    | Except.ok r? =>
      match performCommit sep bookid filename r? bh (books n) (oracle n) with
      | Except.error e => Except.error e
      | Except.ok out => Except.ok (some out.repo)

/-! ### Concrete instances used by the closed theorems below -/

/-- Extract the outcome of a successful commit call (dummy outcome on error). -/
def exOut (r : Except PyError CommitOutcome) : CommitOutcome :=
  match r with
  | Except.ok o => o
  | Except.error _ =>
    { repo := { tags := [], tracked := [], workDir := [], commits := 0 },
      report := "", rmPaths := [], tagCreated := "", copied := [] }

/-- A store oracle for runs in which every store operation succeeds. -/
def okOracle : StoreOracle :=
  { statusUnstaged := [], statusUntracked := [], addResult := fun ps => (ps, []),
    commitError := none }

/-- A store oracle whose commit operation raises an exception. -/
def failOracle : StoreOracle :=
  { statusUnstaged := [], statusUntracked := [], addResult := fun ps => (ps, []),
    commitError := some (PyError.exception "store op failed") }

/-- A concrete book tree; note the user-supplied `mimetype` with content that
differs from the fixed `application/epub+zip` bytes. -/
def wBh : FS :=
  [("OEBPS/content.opf", "opf"), ("OEBPS/text/ch1.xhtml", "ch1"),
   ("mimetype", "user-supplied")]

/-- A constant book-file list for iterated commits. -/
def wBooks : Nat → List String := fun _ => ["OEBPS/content.opf"]

/-- A concrete existing repository for incremental-commit instances. -/
def wRepo : StoreRepo :=
  { tags := ["V0001"],
    tracked := ["mimetype", ".gitignore", ".bookinfo", "OEBPS/content.opf",
                "OEBPS/old.xhtml"],
    workDir := [("mimetype", "application/epub+zip")], commits := 1 }

/-- The outcome of a concrete successful incremental commit. -/
def wOutInc : CommitOutcome :=
  exOut (performCommit '/' "42" "Book" (some wRepo) wBh
    ["OEBPS/content.opf", "mimetype"] okOracle)

/-- The outcome of a concrete successful initial commit. -/
def wOutInit : CommitOutcome :=
  exOut (performCommit '/' "42" "Book" none wBh
    ["OEBPS/content.opf", "mimetype"] okOracle)

/-- A concrete persistent repository for materializer instances. -/
def wSrcRepo : GitRepo :=
  { tags := ["V0001"],
    tagTree := fun t =>
      if t = "V0001"
      then [("mimetype", "application/epub+zip"), ("OEBPS/content.opf", "opf")]
      else [],
    workTree := [("mimetype", "application/epub+zip")],
    head := "refs/heads/master" }

/-- A source tree with no root `mimetype` marker file. -/
def wFolderNoMime : FS := [("OEBPS/content.opf", "opf")]

/-- A source tree with the `mimetype` marker and one content file. -/
def wFolderOk : FS := [("mimetype", "application/epub+zip"), ("OEBPS/a.xhtml", "x")]

/-- The archive entries built from `wFolderOk`. -/
def wEntries : List ZipEntry :=
  [{ name := "mimetype", comp := Comp.stored, content := "application/epub+zip" },
   { name := "OEBPS/a.xhtml", comp := Comp.deflated, content := "x" }]

/-! ## Supporting lemmas -/

theorem toDecimalAux_fuel : ∀ f1 f2 n, n ≤ f1 → n ≤ f2 →
    toDecimalAux f1 n = toDecimalAux f2 n := by
  intro f1
  induction f1 with
  | zero =>
    intro f2 n h1 _
    have hn : n = 0 := by omega
    subst hn
    cases f2 <;> rfl
  | succ m ih =>
    intro f2 n h1 h2
    match n, f2 with
    | 0, 0 => rfl
    | 0, k + 1 => rfl
    | n + 1, k + 1 =>
      show ((n + 1) % 10) :: toDecimalAux m ((n + 1) / 10)
        = ((n + 1) % 10) :: toDecimalAux k ((n + 1) / 10)
      have hd : (n + 1) / 10 < n + 1 := Nat.div_lt_self (by omega) (by omega)
      congr 1
      exact ih k ((n + 1) / 10) (by omega) (by omega)

theorem decDigits_succ (n : Nat) (h : n ≠ 0) :
    decDigits n = (n % 10) :: decDigits (n / 10) := by
  cases n with
  | zero => exact absurd rfl h
  | succ m =>
    have hd : (m + 1) / 10 < m + 1 := Nat.div_lt_self (by omega) (by omega)
    show ((m + 1) % 10) :: toDecimalAux m ((m + 1) / 10)
      = ((m + 1) % 10) :: toDecimalAux ((m + 1) / 10) ((m + 1) / 10)
    congr 1
    exact toDecimalAux_fuel m ((m + 1) / 10) ((m + 1) / 10) (by omega) (by omega)

theorem decDigits_lt (n : Nat) : ∀ d ∈ decDigits n, d < 10 := by
  suffices h : ∀ fuel m d, d ∈ toDecimalAux fuel m → d < 10 by
    intro d hd
    exact h n n d hd
  intro fuel
  induction fuel with
  | zero => intro m d hd; cases hd
  | succ f ih =>
    intro m d hd
    cases m with
    | zero => cases hd
    | succ k =>
      rcases List.mem_cons.mp hd with h1 | h1
      · subst h1; exact Nat.mod_lt _ (by omega)
      · exact ih _ _ h1

theorem foldr_decDigits (n : Nat) :
    (decDigits n).foldr (fun d acc => 10 * acc + d) 0 = n := by
  induction n using Nat.strong_induction_on with
  | _ n ih =>
    cases n with
    | zero => rfl
    | succ m =>
      rw [decDigits_succ (m + 1) (by omega)]
      simp only [List.foldr_cons]
      rw [ih ((m + 1) / 10) (Nat.div_lt_self (by omega) (by omega))]
      omega

theorem digitVal_digitChar : ∀ d, d < 10 → digitVal (digitChar d) = d := by decide

theorem foldl_digitChar_map : ∀ (l : List Nat), (∀ d ∈ l, d < 10) →
    ∀ a, (l.map digitChar).foldl (fun acc c => 10 * acc + digitVal c) a
      = l.foldl (fun acc d => 10 * acc + d) a := by
  intro l
  induction l with
  | nil => intro _ a; rfl
  | cons d rest ih =>
    intro hl a
    simp only [List.map_cons, List.foldl_cons]
    rw [digitVal_digitChar d (hl d (by simp))]
    exact ih (fun x hx => hl x (by simp [hx])) _

theorem foldl_replicate_zeroChar : ∀ m,
    (List.replicate m '0').foldl (fun acc c => 10 * acc + digitVal c) 0 = 0 := by
  intro m
  induction m with
  | zero => rfl
  | succ k ih =>
    rw [List.replicate_succ, List.foldl_cons]
    exact ih

theorem vtagVal_vtag (k : Nat) : vtagVal (vtag k) = k := by
  have hdata : (vtag k).data
      = 'V' :: (List.replicate (4 - (decDigits k).length) '0'
          ++ ((decDigits k).reverse.map digitChar)) := rfl
  unfold vtagVal
  rw [hdata]
  simp only [List.drop_succ_cons, List.drop_zero]
  rw [List.foldl_append, foldl_replicate_zeroChar]
  rw [foldl_digitChar_map ((decDigits k).reverse)
    (fun d hd => decDigits_lt k d (List.mem_reverse.mp hd))]
  rw [List.foldl_reverse]
  exact foldr_decDigits k

theorem vtag_injective : Function.Injective vtag := by
  intro a b h
  have h2 := congrArg vtagVal h
  rwa [vtagVal_vtag, vtagVal_vtag] at h2

theorem vtag_one : vtag 1 = "V0001" := by decide
theorem fsRead_fsWrite_self (fs : FS) (p c : String) :
    fsRead (fsWrite fs p c) p = some c := by
  simp [fsRead, fsWrite]

theorem fsRead_fsWrite_ne (fs : FS) {p q : String} (c : String) (h : p ≠ q) :
    fsRead (fsWrite fs p c) q = fsRead fs q := by
  simp [fsRead, fsWrite, List.find?_cons, h]

theorem copyLoop_copied (bh : FS) : ∀ (ps : List String) (d : FS)
    (acc : List String) (d' : FS) (c' : List String),
    copyLoop bh ps d acc = Except.ok (d', c') → c' = acc ++ ps := by
  intro ps
  induction ps with
  | nil =>
    intro d acc d' c' h
    simp only [copyLoop] at h
    cases h
    simp
  | cons p rest ih =>
    intro d acc d' c' h
    simp only [copyLoop] at h
    cases hr : fsRead bh p with
    | none => rw [hr] at h; cases h
    | some data =>
      rw [hr] at h
      have h2 := ih _ _ _ _ h
      simp [h2]

theorem copyLoop_ok (bh : FS) : ∀ (ps : List String) (d : FS) (acc : List String),
    (∀ p ∈ ps, (fsRead bh p).isSome) →
    ∃ d' c', copyLoop bh ps d acc = Except.ok (d', c') := by
  intro ps
  induction ps with
  | nil => intro d acc _; exact ⟨d, acc, rfl⟩
  | cons p rest ih =>
    intro d acc hp
    have h1 : (fsRead bh p).isSome := hp p (by simp)
    cases hr : fsRead bh p with
    | none => rw [hr] at h1; cases h1
    | some data =>
      obtain ⟨d', c', h2⟩ := ih (fsWrite d p data) (acc ++ [p])
        (fun q hq => hp q (by simp [hq]))
      exact ⟨d', c', by simp only [copyLoop]; rw [hr]; exact h2⟩

theorem copy_ok (bh : FS) (ps : List String) (d wd : FS) (copied : List String)
    (h : copy_book_contents_to_destination bh ps d = Except.ok (wd, copied)) :
    fsRead wd "mimetype" = some "application/epub+zip"
    ∧ copied = ps ++ ["mimetype"] := by
  unfold copy_book_contents_to_destination at h
  cases hl : copyLoop bh ps d [] with
  | error e => rw [hl] at h; cases h
  | ok dc =>
    obtain ⟨d', c'⟩ := dc
    rw [hl] at h
    have hc := copyLoop_copied bh ps d [] d' c' hl
    cases h
    constructor
    · exact fsRead_fsWrite_self d' "mimetype" "application/epub+zip"
    · simp [hc]

theorem copy_exists_ok (bh : FS) (ps : List String) (d : FS)
    (hp : ∀ p ∈ ps, (fsRead bh p).isSome) :
    ∃ wd copied, copy_book_contents_to_destination bh ps d = Except.ok (wd, copied) := by
  obtain ⟨d', c', h⟩ := copyLoop_ok bh ps d [] hp
  exact ⟨fsWrite d' "mimetype" "application/epub+zip", c' ++ ["mimetype"], by
    unfold copy_book_contents_to_destination
    rw [h]⟩
theorem performCommit_some_ok (sep : Char) (bid fn : String) (repo : StoreRepo)
    (bh : FS) (bf : List String) (o : StoreOracle) (out : CommitOutcome)
    (h : performCommit sep bid fn (some repo) bh bf o = Except.ok out) :
    out.repo.tags = repo.tags ++ [vtag (repo.tags.length + 1)]
    ∧ out.tagCreated = vtag (repo.tags.length + 1)
    ∧ out.rmPaths = files_to_delete repo.tracked (bf.map (sepNormalize sep))
    ∧ fsRead out.repo.workDir "mimetype" = some "application/epub+zip"
    ∧ out.copied = bf.map (sepNormalize sep) ++ ["mimetype"] := by
  simp only [performCommit] at h
  split at h
  · cases h
  · next wd copied heq =>
    split at h
    · cases h
    · next hce =>
      cases h
      have hcopy := copy_ok _ _ _ _ _ heq
      refine ⟨?_, ?_, ?_, ?_, ?_⟩
      · simp only [storeTagCreate, storeCommit, storeAdd]
        split <;> simp [storeRm]
      · rfl
      · simp only []
        split
        · rfl
        · next hlen =>
          have : files_to_delete repo.tracked (List.map (sepNormalize sep) bf) = [] := by
            have := List.eq_nil_of_length_eq_zero (by omega :
              (files_to_delete repo.tracked (List.map (sepNormalize sep) bf)).length = 0)
            exact this
          rw [this]
      · simp only [storeTagCreate, storeCommit, storeAdd]
        exact hcopy.1
      · exact hcopy.2

theorem performCommit_none_ok (sep : Char) (bid fn : String)
    (bh : FS) (bf : List String) (o : StoreOracle) (out : CommitOutcome)
    (h : performCommit sep bid fn none bh bf o = Except.ok out) :
    out.repo.tags = ["V0001"]
    ∧ out.tagCreated = "V0001"
    ∧ out.rmPaths = []
    ∧ fsRead out.repo.workDir "mimetype" = some "application/epub+zip"
    ∧ out.copied = bf.map (sepNormalize sep) ++ ["mimetype"] := by
  simp only [performCommit] at h
  split at h
  · cases h
  · next wd copied heq =>
    split at h
    · cases h
    · next hce =>
      cases h
      have hcopy := copy_ok _ _ _ _ _ heq
      refine ⟨rfl, rfl, rfl, ?_, hcopy.2⟩
      simp only [storeTagCreate, storeCommit, storeAdd]
      rw [fsRead_fsWrite_ne _ _ (by decide : (".bookinfo" : String) ≠ "mimetype")]
      exact hcopy.1

theorem performCommit_exists_ok (sep : Char) (bid fn : String)
    (repo? : Option StoreRepo) (bh : FS) (bf : List String) (o : StoreOracle)
    (hce : o.commitError = none)
    (hb : ∀ p ∈ bf.map (sepNormalize sep), (fsRead bh p).isSome) :
    ∃ out, performCommit sep bid fn repo? bh bf o = Except.ok out := by
  cases repo? with
  | some repo =>
    simp only [performCommit]
    obtain ⟨wd, copied, hcopy⟩ := copy_exists_ok bh (bf.map (sepNormalize sep))
      ((if (files_to_delete repo.tracked (bf.map (sepNormalize sep))).length > 0
        then storeRm repo (files_to_delete repo.tracked (bf.map (sepNormalize sep)))
        else repo).workDir) hb
    rw [hcopy, hce]
    exact ⟨_, rfl⟩
  | none =>
    simp only [performCommit]
    obtain ⟨wd, copied, hcopy⟩ := copy_exists_ok bh (bf.map (sepNormalize sep))
      (fsWrite (fsWrite [] ".gitignore" gitignore_data) ".gitattributes" gitattributes_data) hb
    rw [hcopy, hce]
    exact ⟨_, rfl⟩

theorem repoAfter_succ (sep : Char) (bid fn : String) (bh : FS)
    (books : Nat → List String) (oracle : Nat → StoreOracle) (n : Nat)
    (r? : Option StoreRepo)
    (h : repoAfter sep bid fn bh books oracle n = Except.ok r?) :
    repoAfter sep bid fn bh books oracle (n + 1) =
      match performCommit sep bid fn r? bh (books n) (oracle n) with
      | Except.error e => Except.error e
      | Except.ok out => Except.ok (some out.repo) := by
  simp only [repoAfter]
  rw [h]

/-! ## Claim theorems -/

/-- C1: for every sequence of `n ≥ 1` successful `commitSnapshot` calls on a
fresh document identity (no repository at the start, every store operation
succeeding and every supplied book file readable), the repository's tag list
afterwards is exactly `[vtag 1, …, vtag n]` (the `k`-th commit creates the tag
`"V%04d" % k`, computed as one plus the number of existing tags; the initial
commit's literal `V0001` coincides with the formula), with no gaps or
repeats. -/
theorem c1_tag_sequence (sep : Char) (bid fn : String) (bh : FS)
    (books : Nat → List String) (oracle : Nat → StoreOracle)
    (hO : ∀ k, (oracle k).commitError = none)
    (hB : ∀ k, ∀ p ∈ (books k).map (sepNormalize sep), (fsRead bh p).isSome) :
    ∀ n, 1 ≤ n → ∃ r, repoAfter sep bid fn bh books oracle n = Except.ok (some r)
      ∧ r.tags = (List.range' 1 n).map vtag ∧ r.tags.Nodup := by
  intro n
  induction n with
  | zero => intro hn; omega
  | succ m ih =>
    intro _
    cases m with
    | zero =>
      obtain ⟨out, hout⟩ := performCommit_exists_ok sep bid fn none bh (books 0)
        (oracle 0) (hO 0) (hB 0)
      have hprops := performCommit_none_ok sep bid fn bh (books 0) (oracle 0) out hout
      refine ⟨out.repo, ?_, ?_, ?_⟩
      · rw [repoAfter_succ sep bid fn bh books oracle 0 none rfl, hout]
      · rw [hprops.1]
        simp [vtag_one]
      · rw [hprops.1]
        simp
    | succ k =>
      obtain ⟨r, hr, htags, hnd⟩ := ih (by omega)
      obtain ⟨out, hout⟩ := performCommit_exists_ok sep bid fn (some r) bh
        (books (k + 1)) (oracle (k + 1)) (hO _) (hB _)
      have hprops := performCommit_some_ok sep bid fn r bh (books (k + 1))
        (oracle (k + 1)) out hout
      have hlen : r.tags.length = k + 1 := by rw [htags]; simp
      have htags2 : out.repo.tags = (List.range' 1 (k + 1 + 1)).map vtag := by
        rw [hprops.1, hlen, htags, List.range'_1_concat 1 (k + 1), List.map_append]
        have h12 : 1 + (k + 1) = k + 1 + 1 := by omega
        rw [h12]
        simp
      refine ⟨out.repo, ?_, htags2, ?_⟩
      · rw [repoAfter_succ sep bid fn bh books oracle (k + 1) (some r) hr, hout]
      · rw [htags2]
        exact (List.nodup_range' 1 (k + 1 + 1)).map vtag_injective

/-- C1 witness: two successful commits on a fresh identity yield exactly the
tags `V0001`, `V0002`. -/
theorem c1_tag_sequence_witness :
    ∃ r, repoAfter '/' "42" "Book" wBh wBooks (fun _ => okOracle) 2
        = Except.ok (some r)
      ∧ r.tags = (List.range' 1 2).map vtag ∧ r.tags.Nodup := by
  have hB : ∀ k, ∀ p ∈ (wBooks k).map (sepNormalize '/'), (fsRead wBh p).isSome := by
    intro k
    show ∀ p ∈ (["OEBPS/content.opf"].map (sepNormalize '/')), (fsRead wBh p).isSome
    decide
  exact c1_tag_sequence '/' "42" "Book" wBh wBooks (fun _ => okOracle)
    (fun _ => rfl) hB 2 (by omega)
/-- C2 (code bug): when the repository exists but the requested tag is not in
the enumerated tag list, `generate_epub_from_tag` does not return the
empty-string failure result: source line 227 executes `return epub_file_path`,
a variable that does not exist (the defined one is `epub_filepath`), so the
call raises `NameError` instead.  No scratch directory has been allocated at
that point. -/
theorem c2_missing_tag_raises_nameError :
    (generate_epub_from_tag '/' (some wSrcRepo) "V0002" "Book" "/dest" false).result
      = Except.error (PyError.nameError "epub_file_path")
    ∧ (generate_epub_from_tag '/' (some wSrcRepo) "V0002" "Book" "/dest" false).scratchAllocated
      = false := ⟨rfl, rfl⟩

/-- C3 (code bug): when an exception is raised inside the `with
make_temp_directory()` body (here: the external clone call fails), the scratch
directory is allocated but never removed — `make_temp_directory`'s `yield` is
not wrapped in `try`/`finally`, so `shutil.rmtree` is skipped on the
exceptional exit path and the exception propagates. -/
theorem c3_scratch_leaked_on_exception :
    (generate_epub_from_tag '/' (some wSrcRepo) "V0001" "Book" "/dest" true).scratchAllocated
      = true
    ∧ (generate_epub_from_tag '/' (some wSrcRepo) "V0001" "Book" "/dest" true).scratchRemoved
      = false
    ∧ (generate_epub_from_tag '/' (some wSrcRepo) "V0001" "Book" "/dest" true).result
      = Except.error (PyError.exception "clone failed") := ⟨rfl, rfl, rfl⟩

/-- C4 (code bug): the missing comma in `_SKIP_LIST` merges `.gitattributes`
and `.bookinfo` into the single entry `.gitattributes.bookinfo`.  Hence files
named `.gitattributes` or `.bookinfo` are NOT omitted from the archive
(`valid_file_to_copy` returns `True` for them), while a file named
`.gitattributes.bookinfo` is omitted; the other skip-list names and `.git`
directory segments behave as the claim states. -/
theorem c4_skip_list_mangled :
    valid_file_to_copy '/' ".gitattributes" = true
    ∧ valid_file_to_copy '/' ".bookinfo" = true
    ∧ valid_file_to_copy '/' ".gitattributes.bookinfo" = false
    ∧ valid_file_to_copy '/' ".gitignore" = false
    ∧ valid_file_to_copy '/' "encryption.xml" = false
    ∧ valid_file_to_copy '/' "rights.xml" = false
    ∧ valid_file_to_copy '/' "OEBPS/.git/config" = false
    ∧ valid_file_to_copy '/' "OEBPS/content.opf" = true := by decide

/-- C5 counterexample: building over a source tree with no root `mimetype`
raises the distinct marker-file-missing error, but — contrary to the claim — a
file IS produced at the output path: `zipfile.ZipFile(epub_filepath, mode='w')`
on source line 196 creates/truncates the output file before the `mimetype`
check runs, and no code removes it when the exception is raised. -/
theorem c5_counterexample :
    (build_epub_from_folder_contents '/' wFolderNoMime).result
      = Except.error "mimetype file is missing"
    ∧ (build_epub_from_folder_contents '/' wFolderNoMime).outFileCreated = true :=
  ⟨rfl, rfl⟩

/-- C5 amended: for every archive build over a source tree with no root
`mimetype`, the build fails with the distinct `mimetype file is missing` error
and writes no archive entries, but an (empty) output file has already been
created at the output path, because the zip output is opened for writing
before the marker check. -/
theorem c5_marker_missing (sep : Char) (folder : FS)
    (h : "mimetype" ∉ fsPaths folder) :
    (build_epub_from_folder_contents sep folder).result
      = Except.error "mimetype file is missing"
    ∧ (build_epub_from_folder_contents sep folder).outFileCreated = true := by
  have hc : ((fsPaths folder).contains "mimetype") = false := by
    simp [List.contains, h]
  simp only [build_epub_from_folder_contents]
  rw [hc]
  exact ⟨rfl, rfl⟩

/-- C5 amended witness at a concrete marker-less tree. -/
theorem c5_marker_missing_witness :
    (build_epub_from_folder_contents '/' wFolderNoMime).result
      = Except.error "mimetype file is missing"
    ∧ (build_epub_from_folder_contents '/' wFolderNoMime).outFileCreated = true :=
  c5_marker_missing '/' wFolderNoMime (by decide)

/-- C6: every archive the builder produces starts with the `mimetype` entry,
stored without compression; every other entry is deflate-compressed, carries a
source file's relative path as its name and that file's bytes as content, and
conversely every non-marker source file accepted by `valid_file_to_copy`
appears among those entries. -/
theorem c6_archive_layout (sep : Char) (folder : FS) (es : List ZipEntry)
    (h : (build_epub_from_folder_contents sep folder).result = Except.ok es) :
    ∃ e0 tail, es = e0 :: tail
      ∧ e0.name = "mimetype" ∧ e0.comp = Comp.stored
      ∧ (∀ e ∈ tail, e.comp = Comp.deflated ∧ e.name ∈ fsPaths folder
           ∧ valid_file_to_copy sep e.name = true
           ∧ e.content = (fsRead folder e.name).getD "")
      ∧ (∀ f, f ∈ fsPaths folder → f ≠ "mimetype" → valid_file_to_copy sep f = true →
           ∃ e ∈ tail, e.name = f) := by
  simp only [build_epub_from_folder_contents] at h
  by_cases hm : (fsPaths folder).contains "mimetype"
  · rw [hm] at h
    simp only [if_pos] at h
    injection h with h
    refine ⟨_, _, h.symm, rfl, rfl, ?_, ?_⟩
    · intro e he
      obtain ⟨f, hf, rfl⟩ := List.mem_map.mp he
      have hf2 := List.mem_filter.mp hf
      exact ⟨rfl, List.mem_of_mem_erase hf2.1, hf2.2, rfl⟩
    · intro f hf hne hv
      have hf1 : f ∈ (fsPaths folder).erase "mimetype" :=
        (List.mem_erase_of_ne hne).mpr hf
      have hf2 : f ∈ ((fsPaths folder).erase "mimetype").filter (valid_file_to_copy sep) :=
        List.mem_filter.mpr ⟨hf1, hv⟩
      exact ⟨_, List.mem_map_of_mem _ hf2, rfl⟩
  · rw [if_neg hm] at h
    cases h

/-- C6 witness at a concrete two-file tree. -/
theorem c6_archive_layout_witness :
    ∃ e0 tail, wEntries = e0 :: tail
      ∧ e0.name = "mimetype" ∧ e0.comp = Comp.stored
      ∧ (∀ e ∈ tail, e.comp = Comp.deflated ∧ e.name ∈ fsPaths wFolderOk
           ∧ valid_file_to_copy '/' e.name = true
           ∧ e.content = (fsRead wFolderOk e.name).getD "")
      ∧ (∀ f, f ∈ fsPaths wFolderOk → f ≠ "mimetype" → valid_file_to_copy '/' f = true →
           ∃ e ∈ tail, e.name = f) :=
  c6_archive_layout '/' wFolderOk wEntries rfl

/-- C7: for every successful incremental commit, a path is staged for removal
iff it is tracked in the store and neither among the supplied
(separator-normalized) book paths nor in the fixed set
`{mimetype, .gitignore, .bookinfo}`. -/
theorem c7_staged_removals (sep : Char) (bid fn : String) (repo : StoreRepo)
    (bh : FS) (bf : List String) (o : StoreOracle) (out : CommitOutcome)
    (h : performCommit sep bid fn (some repo) bh bf o = Except.ok out) :
    ∀ f, f ∈ out.rmPaths ↔
      f ∈ repo.tracked ∧ f ∉ bf.map (sepNormalize sep)
        ∧ f ∉ (["mimetype", ".gitignore", ".bookinfo"] : List String) := by
  intro f
  rw [(performCommit_some_ok sep bid fn repo bh bf o out h).2.2.1]
  unfold files_to_delete
  rw [List.mem_filter]
  simp

/-- C7 witness: in a concrete incremental commit, the dropped file
`OEBPS/old.xhtml` is staged for removal by exactly the claimed criterion. -/
theorem c7_staged_removals_witness :
    "OEBPS/old.xhtml" ∈ wOutInc.rmPaths ↔
      "OEBPS/old.xhtml" ∈ wRepo.tracked
      ∧ "OEBPS/old.xhtml" ∉ (["OEBPS/content.opf", "mimetype"].map (sepNormalize '/'))
      ∧ "OEBPS/old.xhtml" ∉ (["mimetype", ".gitignore", ".bookinfo"] : List String) :=
  c7_staged_removals '/' "42" "Book" wRepo wBh ["OEBPS/content.opf", "mimetype"]
    okOracle wOutInc rfl "OEBPS/old.xhtml"

/-- C8 counterexample: a `performCommit` call during which the store's commit
operation raises does NOT return an empty/failure report — the exception
propagates to the caller (`performCommit` contains no `try`/`except`; its
`has_error` flag is initialized `False` and never set). -/
theorem c8_counterexample :
    performCommit '/' "42" "Book" (some wRepo) wBh ["OEBPS/content.opf"] failOracle
      = Except.error (PyError.exception "store op failed") := rfl

/-- C8 amended: `performCommit` does not catch store/filesystem failures: when
the store's commit operation raises (and the preceding copy step can read its
inputs), the exception propagates unchanged to the caller instead of being
converted into an empty report. -/
theorem c8_commit_failure_propagates (sep : Char) (bid fn : String)
    (repo? : Option StoreRepo) (bh : FS) (bf : List String) (o : StoreOracle)
    (e : PyError) (hce : o.commitError = some e)
    (hb : ∀ p ∈ bf.map (sepNormalize sep), (fsRead bh p).isSome) :
    performCommit sep bid fn repo? bh bf o = Except.error e := by
  cases repo? with
  | some repo =>
    simp only [performCommit]
    obtain ⟨wd, copied, hcopy⟩ := copy_exists_ok bh (bf.map (sepNormalize sep)) _ hb
    rw [hcopy, hce]
  | none =>
    simp only [performCommit]
    obtain ⟨wd, copied, hcopy⟩ := copy_exists_ok bh (bf.map (sepNormalize sep)) _ hb
    rw [hcopy, hce]

/-- C8 amended witness: an initial commit whose store commit raises propagates
that exception. -/
theorem c8_commit_failure_propagates_witness :
    performCommit '/' "42" "Book" none wBh ["OEBPS/content.opf"] failOracle
      = Except.error (PyError.exception "store op failed") :=
  c8_commit_failure_propagates '/' "42" "Book" none wBh ["OEBPS/content.opf"]
    failOracle (PyError.exception "store op failed") rfl (by decide)

/-- C10: every successful `performCommit` call (initial or incremental) leaves
`mimetype` in the repository working area with the exact fixed bytes
`application/epub+zip` — regardless of any user-supplied `mimetype` in the
book tree — and the copy step's returned list is the supplied paths with
`"mimetype"` appended, even when the supplied paths already contain it. -/
theorem c10_mimetype_always_written (sep : Char) (bid fn : String)
    (repo? : Option StoreRepo) (bh : FS) (bf : List String) (o : StoreOracle)
    (out : CommitOutcome)
    (h : performCommit sep bid fn repo? bh bf o = Except.ok out) :
    fsRead out.repo.workDir "mimetype" = some "application/epub+zip"
    ∧ out.copied = bf.map (sepNormalize sep) ++ ["mimetype"] := by
  cases repo? with
  | some repo =>
    have hp := performCommit_some_ok sep bid fn repo bh bf o out h
    exact ⟨hp.2.2.2.1, hp.2.2.2.2⟩
  | none =>
    have hp := performCommit_none_ok sep bid fn bh bf o out h
    exact ⟨hp.2.2.2.1, hp.2.2.2.2⟩

/-- C10 witness: an initial commit whose book tree supplies its own `mimetype`
(content `user-supplied`) still ends with the fixed bytes on disk and with
`"mimetype"` appended to the copied list. -/
theorem c10_mimetype_always_written_witness :
    fsRead wOutInit.repo.workDir "mimetype" = some "application/epub+zip"
    ∧ wOutInit.copied
      = ["OEBPS/content.opf", "mimetype"].map (sepNormalize '/') ++ ["mimetype"] :=
  c10_mimetype_always_written '/' "42" "Book" none wBh
    ["OEBPS/content.opf", "mimetype"] okOracle wOutInit rfl

/-- C9: every materialization call — repository absent, tag absent, clone
failure, build failure or success — leaves the persistent source repository
unchanged (its entire state, including working tree and head); and whenever
the scratch clone's final state exists, its working tree equals the tag's tree
and its head is the symbolic reference `refs/tags/<tag>` — the reset and head
update touch only the clone. -/
theorem c9_source_repo_untouched (sep : Char) (repo? : Option GitRepo)
    (tagname fn dest : String) (cloneFails : Bool) :
    (generate_epub_from_tag sep repo? tagname fn dest cloneFails).srcRepo = repo?
    ∧ (∀ s r, repo? = some s →
        (generate_epub_from_tag sep repo? tagname fn dest cloneFails).scratchFinal
          = some r →
        r.workTree = s.tagTree tagname ∧ r.head = "refs/tags/" ++ tagname) := by
  cases repo? with
  | none => exact ⟨rfl, fun s r hs => by cases hs⟩
  | some s =>
    by_cases ht : tagname ∈ s.tags
    · cases cloneFails with
      | true =>
        constructor
        · simp [generate_epub_from_tag, ht, make_temp_directory]
        · intro s' r hs hr
          simp [generate_epub_from_tag, ht, make_temp_directory] at hr
      | false =>
        cases hb : (build_epub_from_folder_contents sep (s.tagTree tagname)).result with
        | ok es =>
          constructor
          · simp [generate_epub_from_tag, ht, make_temp_directory, hb]
          · intro s' r hs hr
            injection hs with hs
            subst hs
            simp [generate_epub_from_tag, ht, make_temp_directory, hb] at hr
            subst hr
            exact ⟨rfl, rfl⟩
        | error msg =>
          constructor
          · simp [generate_epub_from_tag, ht, make_temp_directory, hb]
          · intro s' r hs hr
            injection hs with hs
            subst hs
            simp [generate_epub_from_tag, ht, make_temp_directory, hb] at hr
            subst hr
            exact ⟨rfl, rfl⟩
    · constructor
      · simp [generate_epub_from_tag, ht]
      · intro s' r hs hr
        simp [generate_epub_from_tag, ht] at hr

/-- C9 witness: a concrete successful materialization of `V0001`. -/
theorem c9_source_repo_untouched_witness :
    (generate_epub_from_tag '/' (some wSrcRepo) "V0001" "Book" "/dest" false).srcRepo
      = some wSrcRepo
    ∧ (∀ s r, some wSrcRepo = some s →
        (generate_epub_from_tag '/' (some wSrcRepo) "V0001" "Book" "/dest" false).scratchFinal
          = some r →
        r.workTree = s.tagTree "V0001" ∧ r.head = "refs/tags/" ++ "V0001") :=
  c9_source_repo_untouched '/' (some wSrcRepo) "V0001" "Book" "/dest" false
